import Mathlib

/-!
Verification of the environment-association and settings-resolution
subsystem of the datica CLI (`config/settings.go`), shallowly embedded
in Lean.  Go maps are modelled as association lists (first match wins,
mirroring the source's range-and-break loops), the interactive prompt
is modelled over an explicit finite input stream (`none` result models
blocking forever on standard input), fatal `logrus.Fatalf`/`os.Exit`
terminations are modelled as `Except.error`, and the home-directory
file system is modelled as a pair of optional file contents (the
legacy-named file and the current-named file).
-/

namespace Datica

/-- One saved alias-to-environment binding (`models.AssociatedEnv`). -/
structure AssociatedEnv where
  Name : String
  EnvironmentID : String
  ServiceID : String
  Pod : String
  OrgID : String
deriving DecidableEq, Repr

/-- The per-invocation resolved configuration (`models.Settings`).
`Environments` is the Go map `alias -> AssociatedEnv`, modelled as an
association list. -/
structure Settings where
  AccountsHost : String
  AuthHost : String
  PaasHost : String
  AuthHostVersion : String
  PaasHostVersion : String
  Username : String
  Password : String
  EnvironmentID : String
  ServiceID : String
  Pod : String
  EnvironmentName : String
  OrgID : String
  SessionToken : String
  UsersID : String
  Environments : List (String × AssociatedEnv)
  Default : String
  Version : String
deriving DecidableEq, Repr

/-- Modelled from the spec: the on-disk JSON store file.  The `models`
package carrying the JSON tags is not under `src/`; per the spec the
store file's "fields correspond 1:1 to the Settings entity" except the
transient fields (username, password, host URLs), which are never
persisted.  `Environments = none` models a missing or `null`
`environments` field in the JSON object. -/
structure PersistedSettings where
  AuthHostVersion : String
  PaasHostVersion : String
  EnvironmentID : String
  ServiceID : String
  Pod : String
  EnvironmentName : String
  OrgID : String
  SessionToken : String
  UsersID : String
  Environments : Option (List (String × AssociatedEnv))
  Default : String
  Version : String
deriving DecidableEq, Repr

/-- Modelled from the spec: the compiled-in CLI version constant
(`config.VERSION`, in a file not under `src/`); theorems do not depend
on its value. -/
def VERSION : String := "4.0.0"

/-- Modelled from the spec: the compiled-in default auth-service
protocol version (`config.AuthHostVersion`, not under `src/`). -/
def AuthHostVersion : String := "v2"

/-- Modelled from the spec: the compiled-in default paas-service
protocol version (`config.PaasHostVersion`, not under `src/`). -/
def PaasHostVersion : String := "v2"

/-- Modelled from the spec: the AssociationRequired error
(`config.ErrEnvRequired`, defined in a `config`-package file not under
`src/`): an "association required" error naming the remedy command. -/
def ErrEnvRequired : String :=
  "An environment is required for this command. Run \"datica associate\" from a local git repo to create an association"

/-- The fatal message of `GetSettings` when a CLI-supplied alias does
not resolve (from `logrus.Fatalf` in `config/settings.go`). -/
def noEnvNamedMsg (envName : String) : String :=
  "No environment named \"" ++ envName ++ "\" has been associated. Run \"datica associated\" to see what environments have been associated or run \"datica associate\" from a local git repo to create a new association"

/-- The error of `DeleteBreadcrumb` for an absent alias (from
`fmt.Errorf` in `config/settings.go`). -/
def notAssociatedMsg (aliasName : String) : String :=
  "An environment named \"" ++ aliasName ++ "\" has not been associated. Run \"datica associated\" to see current associations."

/-- Equality of Go error results is decidable. -/
instance instDecEqExcept {ε α : Type} [DecidableEq ε] [DecidableEq α] :
    DecidableEq (Except ε α) := fun x y =>
  match x, y with
  | Except.ok a, Except.ok b =>
    if h : a = b then Decidable.isTrue (by rw [h])
    else Decidable.isFalse (fun hc => h (by cases hc; rfl))
  | Except.error a, Except.error b =>
    if h : a = b then Decidable.isTrue (by rw [h])
    else Decidable.isFalse (fun hc => h (by cases hc; rfl))
  | Except.ok _, Except.error _ => Decidable.isFalse (fun hc => Except.noConfusion hc)
  | Except.error _, Except.ok _ => Decidable.isFalse (fun hc => Except.noConfusion hc)

/-- First-match lookup of an alias in the `Environments` map, mirroring
the `for eName, e := range settings.Environments` loops. -/
def lookupEnv (envName : String) : List (String × AssociatedEnv) → Option AssociatedEnv
  | [] => none
  | (eName, e) :: rest => if eName = envName then some e else lookupEnv envName rest

/-- `setGivenEnv` from `config/settings.go`: finds `envName` in the
environments map and, if present, populates the five top-level
association fields of the settings object; a miss leaves the settings
untouched. -/
def setGivenEnv (envName : String) (settings : Settings) : Settings :=
  match lookupEnv envName settings.Environments with
  | none => settings
  | some e =>
    { settings with
      EnvironmentID := e.EnvironmentID
      ServiceID := e.ServiceID
      Pod := e.Pod
      EnvironmentName := envName
      OrgID := e.OrgID }

/-- `defaultEnvPrompt` from `config/settings.go`, over an explicit
stream of answers read from standard input.  The loop re-asks until the
answer is exactly `y` or exactly `n`; an exhausted stream (`none`)
models the process blocking forever. -/
def defaultEnvPrompt (envName : String) : List String → Option (Except String Unit)
  | [] => none
  | answer :: rest =>
    if answer ≠ "y" ∧ answer ≠ "n" then defaultEnvPrompt envName rest
    else if answer = "n" then some (Except.error "Exiting")
    else some (Except.ok ())

/-- The first line of the stream that is exactly `y` or exactly `n`. -/
def firstAnswer : List String → Option String
  | [] => none
  | a :: rest => if a = "y" ∨ a = "n" then some a else firstAnswer rest

/-- The outcome of `CheckRequiredAssociation`: the returned error (if
any), the settings object after the call (the Go code mutates it in
place), and whether the interactive prompt was displayed. -/
structure CheckResult where
  result : Except String Unit
  settings : Settings
  prompted : Bool
deriving DecidableEq, Repr

/-- `CheckRequiredAssociation` from `config/settings.go`.  The Go
`range`-with-`break` over the map inspects only the first entry,
modelled as the head of the association list; `none` models the prompt
blocking forever on standard input. -/
def CheckRequiredAssociation (required prompt : Bool) (settings : Settings)
    (input : List String) : Option CheckResult :=
  if required ∧ (settings.EnvironmentID = "" ∨ settings.ServiceID = "") then
    if prompt then
      match settings.Environments with
      | [] => some ⟨Except.error ErrEnvRequired, settings, false⟩
      | (_, e) :: _ =>
        match defaultEnvPrompt e.Name input with
        | none => none
        | some (Except.ok ()) => some ⟨Except.ok (), setGivenEnv e.Name settings, true⟩
        | some (Except.error msg) => some ⟨Except.error msg, settings, true⟩
    else
      some ⟨Except.error ErrEnvRequired, settings, false⟩
  else
    some ⟨Except.ok (), settings, false⟩

/-- The home directory as seen by `GetSettings`: contents of the
legacy-named file (`.catalyze`) and of the current-named file
(`.datica`). -/
structure FS (α : Type) where
  oldFile : Option α
  curFile : Option α
deriving DecidableEq, Repr

/-- The migration step of `GetSettings`: if the legacy-named file
exists it is renamed to the current name (`os.Rename`, which replaces
any existing destination). -/
def migrateFS {α : Type} (fs : FS α) : FS α :=
  match fs.oldFile with
  | some c => { oldFile := none, curFile := some c }
  | none => fs

/-- The open-or-create step of `GetSettings`: `os.Open` of the current
file, falling back to `os.Create` (an empty file) when absent; returns
the content read together with the resulting file system. -/
def openOrCreate {α : Type} (empty : α) (fs : FS α) : α × FS α :=
  match fs.curFile with
  | some c => (c, fs)
  | none => (empty, { fs with curFile := some empty })

/-- The store content a freshly created (or empty, or malformed) file
decodes to: the zero value of the persisted record. -/
def emptyStore : PersistedSettings :=
  { AuthHostVersion := "", PaasHostVersion := "", EnvironmentID := "", ServiceID := ""
    Pod := "", EnvironmentName := "", OrgID := "", SessionToken := "", UsersID := ""
    Environments := none, Default := "", Version := "" }

/-- JSON decode of the store file into a `Settings` value
(`json.NewDecoder(file).Decode` plus the `nil`-map initialisation):
transient fields start empty, a missing `environments` field becomes
the empty map. -/
def decodeStore (p : PersistedSettings) : Settings :=
  { AccountsHost := "", AuthHost := "", PaasHost := ""
    AuthHostVersion := p.AuthHostVersion, PaasHostVersion := p.PaasHostVersion
    Username := "", Password := ""
    EnvironmentID := p.EnvironmentID, ServiceID := p.ServiceID, Pod := p.Pod
    EnvironmentName := p.EnvironmentName, OrgID := p.OrgID
    SessionToken := p.SessionToken, UsersID := p.UsersID
    Environments := p.Environments.getD []
    Default := p.Default, Version := p.Version }

/-- JSON marshal of a `Settings` value to store-file content
(`json.Marshal` in `SaveSettings`): the transient fields are dropped,
everything else is written 1:1. -/
def marshalStore (s : Settings) : PersistedSettings :=
  { AuthHostVersion := s.AuthHostVersion, PaasHostVersion := s.PaasHostVersion
    EnvironmentID := s.EnvironmentID, ServiceID := s.ServiceID, Pod := s.Pod
    EnvironmentName := s.EnvironmentName, OrgID := s.OrgID
    SessionToken := s.SessionToken, UsersID := s.UsersID
    Environments := some s.Environments
    Default := s.Default, Version := s.Version }

/-- `SaveSettings` from `config/settings.go`: marshals the settings and
overwrites the current-named store file. -/
def SaveSettings (settings : Settings) (fs : FS PersistedSettings) : FS PersistedSettings :=
  { fs with curFile := some (marshalStore settings) }

/-- The CLI-supplied-alias stage of `GetSettings`: when a non-empty
environment name was given, resolve it and fail fatally when the
resulting association is incomplete. -/
def resolveGivenEnv (envName : String) (s0 : Settings) : Except String Settings :=
  if envName ≠ "" then
    let s1 := setGivenEnv envName s0
    if s1.EnvironmentID = "" ∨ s1.ServiceID = "" then
      Except.error (noEnvNamedMsg envName)
    else
      Except.ok s1
  else
    Except.ok s0

/-- The alias-resolution stage of `GetSettings` on the decoded settings:
the CLI-supplied alias first (fatal on failure), then the deprecated
`Default`-alias fallback when the association is still incomplete. -/
def resolveSettings (envName : String) (s0 : Settings) : Except String Settings :=
  match resolveGivenEnv envName s0 with
  | Except.error msg => Except.error msg
  | Except.ok s1 =>
    Except.ok (if s1.EnvironmentID = "" ∨ s1.ServiceID = "" then setGivenEnv s1.Default s1 else s1)

/-- The merge stage of `GetSettings`: stamp the transient
hosts/credentials, the protocol versions (process environment variable
if non-empty, else compiled-in default) and the CLI version. -/
def finishSettings (accountsHost authHost paasHost username password
    authHostVersionEnv paasHostVersionEnv : String) (s2 : Settings) : Settings :=
  { s2 with
    AccountsHost := accountsHost
    AuthHost := authHost
    PaasHost := paasHost
    Username := username
    Password := password
    AuthHostVersion := if authHostVersionEnv = "" then AuthHostVersion else authHostVersionEnv
    PaasHostVersion := if paasHostVersionEnv = "" then PaasHostVersion else paasHostVersionEnv
    Version := VERSION }

/-- `FileSettingsRetriever.GetSettings` from `config/settings.go`:
migrate the legacy file, open or create the store, decode it, resolve
the association (fatally when a CLI-supplied alias does not resolve),
then stamp the transient fields and versions.  `Except.error` models
`logrus.Fatalf`/`os.Exit`. -/
def GetSettings (envName svcName accountsHost authHost ignoreAuthHostVersion paasHost
    ignorePaasHostVersion username password : String)
    (authHostVersionEnv paasHostVersionEnv : String)
    (fs : FS PersistedSettings) : Except String (Settings × FS PersistedSettings) :=
  let opened := openOrCreate emptyStore (migrateFS fs)
  match resolveSettings envName (decodeStore opened.1) with
  | Except.error msg => Except.error msg
  | Except.ok s2 =>
    Except.ok
      (finishSettings accountsHost authHost paasHost username password
        authHostVersionEnv paasHostVersionEnv s2, opened.2)

/-- Removal of a key from the environments map (`delete` on a Go map). -/
def removeKey (aliasName : String) : List (String × AssociatedEnv) →
    List (String × AssociatedEnv)
  | [] => []
  | (k, e) :: rest =>
    if k = aliasName then removeKey aliasName rest
    else (k, e) :: removeKey aliasName rest

/-- `DeleteBreadcrumb` from `config/settings.go`: returns the error (if
any), the settings object after the call, and the file system after the
call (the success path persists immediately via `SaveSettings`). -/
def DeleteBreadcrumb (aliasName : String) (settings : Settings) (fs : FS PersistedSettings) :
    Except String Unit × Settings × FS PersistedSettings :=
  match lookupEnv aliasName settings.Environments with
  | none => (Except.error (notAssociatedMsg aliasName), settings, fs)
  | some _ =>
    let s1 := { settings with Environments := removeKey aliasName settings.Environments }
    (Except.ok (), s1, SaveSettings s1 fs)

/-! ## Concrete fixtures used by witnesses and counterexamples -/

/-- A settings object with empty association and empty environments. -/
def settingsEmptyFx : Settings :=
  { AccountsHost := "", AuthHost := "", PaasHost := "", AuthHostVersion := ""
    PaasHostVersion := "", Username := "", Password := "", EnvironmentID := ""
    ServiceID := "", Pod := "", EnvironmentName := "", OrgID := ""
    SessionToken := "", UsersID := "", Environments := [], Default := ""
    Version := "" }

/-- A fully populated association entry named like its alias. -/
def envProdFx : AssociatedEnv :=
  { Name := "prod", EnvironmentID := "e1", ServiceID := "s1", Pod := "p1", OrgID := "o1" }

/-- A settings object with no association but one saved environment. -/
def settingsProdFx : Settings :=
  { settingsEmptyFx with Environments := [("prod", envProdFx)] }

/-- A saved entry whose association fields were left empty (the spec's
"partially empty" edge case). -/
def envBlankFx : AssociatedEnv :=
  { Name := "prod", EnvironmentID := "", ServiceID := "", Pod := "", OrgID := "" }

/-- A settings object whose only saved environment has empty ids. -/
def settingsBlankEnvFx : Settings :=
  { settingsEmptyFx with Environments := [("prod", envBlankFx)] }

/-- The empty-fielded store record used as a base for store fixtures. -/
def storeEmptyFx : PersistedSettings :=
  { AuthHostVersion := "", PaasHostVersion := "", EnvironmentID := "", ServiceID := ""
    Pod := "", EnvironmentName := "", OrgID := "", SessionToken := "", UsersID := ""
    Environments := some [], Default := "", Version := "" }

/-- A store with a mixed entry (non-empty environment id, empty service
id) reachable through the `Default` fallback. -/
def storeMixedDefaultFx : PersistedSettings :=
  { storeEmptyFx with
    Environments := some [("d", { Name := "d", EnvironmentID := "e1", ServiceID := ""
                                  Pod := "", OrgID := "" })]
    Default := "d" }

/-- A store whose top-level association fields are already populated
(as written by a previous `SaveSettings`) but whose mapping is empty. -/
def storeStaleTopFx : PersistedSettings :=
  { storeEmptyFx with EnvironmentID := "e1", ServiceID := "s1" }

/-- A store that round-trips through a `Default`-alias resolution. -/
def storeDefaultProdFx : PersistedSettings :=
  { storeEmptyFx with
    Environments := some [("prod", envProdFx)]
    Default := "prod" }

/-- A store that resolution leaves untouched (complete association,
version fields already at their stamped values). -/
def storeStableFx : PersistedSettings :=
  { AuthHostVersion := AuthHostVersion, PaasHostVersion := PaasHostVersion
    EnvironmentID := "e1", ServiceID := "s1", Pod := "p1", EnvironmentName := "prod"
    OrgID := "o1", SessionToken := "tok", UsersID := "uid"
    Environments := some [("prod", envProdFx)], Default := "", Version := VERSION }

/-- The Settings object `GetSettings` produces from `storeStableFx`
with empty CLI inputs. -/
def settingsStableOutFx : Settings :=
  finishSettings "" "" "" "" "" "" "" (decodeStore storeStableFx)

/-- The both-empty-or-both-non-empty association invariant on a pair of
identifier fields (the spec's Settings invariant). -/
def pairInv (envID svcID : String) : Prop :=
  (envID = "" ∧ svcID = "") ∨ (envID ≠ "" ∧ svcID ≠ "")

instance (envID svcID : String) : Decidable (pairInv envID svcID) := by
  unfold pairInv
  infer_instance

/-- The Settings invariant applied to the top-level association. -/
def settingsInv (s : Settings) : Prop :=
  pairInv s.EnvironmentID s.ServiceID

/-- The Settings invariant applied to one saved entry. -/
def entryInv (e : AssociatedEnv) : Prop :=
  pairInv e.EnvironmentID e.ServiceID

/-- Every saved entry of an environments mapping satisfies the
association invariant. -/
def envsInv (l : List (String × AssociatedEnv)) : Prop :=
  ∀ p ∈ l, entryInv p.2

/-! ## Shared lemmas -/

theorem setGivenEnv_of_lookup_none {envName : String} {s : Settings}
    (h : lookupEnv envName s.Environments = none) : setGivenEnv envName s = s := by
  unfold setGivenEnv
  rw [h]

theorem setGivenEnv_of_lookup_some {envName : String} {s : Settings} {e : AssociatedEnv}
    (h : lookupEnv envName s.Environments = some e) :
    setGivenEnv envName s =
      { s with
        EnvironmentID := e.EnvironmentID
        ServiceID := e.ServiceID
        Pod := e.Pod
        EnvironmentName := envName
        OrgID := e.OrgID } := by
  unfold setGivenEnv
  rw [h]

theorem defaultEnvPrompt_eq_firstAnswer (envName : String) (input : List String) :
    defaultEnvPrompt envName input =
      (firstAnswer input).map
        (fun a => if a = "n" then Except.error "Exiting" else Except.ok ()) := by
  induction input with
  | nil => rfl
  | cons a rest ih =>
    by_cases hv : a = "y" ∨ a = "n"
    · have hcond : ¬(a ≠ "y" ∧ a ≠ "n") := by tauto
      simp only [defaultEnvPrompt, firstAnswer, if_neg hcond, if_pos hv, Option.map_some']
      by_cases hn : a = "n" <;> simp [hn]
    · have hcond : a ≠ "y" ∧ a ≠ "n" := by tauto
      simp only [defaultEnvPrompt, firstAnswer, if_pos hcond, if_neg hv]
      exact ih

theorem firstAnswer_isSome_iff (input : List String) :
    (firstAnswer input).isSome ↔ ∃ a, a ∈ input ∧ (a = "y" ∨ a = "n") := by
  induction input with
  | nil => simp [firstAnswer]
  | cons a rest ih =>
    by_cases hv : a = "y" ∨ a = "n"
    · simp only [firstAnswer, if_pos hv, Option.isSome_some, true_iff]
      exact ⟨a, List.mem_cons_self a rest, hv⟩
    · simp only [firstAnswer, if_neg hv]
      rw [ih]
      constructor
      · rintro ⟨b, hb, hb2⟩
        exact ⟨b, List.mem_cons_of_mem a hb, hb2⟩
      · rintro ⟨b, hb, hb2⟩
        rcases List.mem_cons.mp hb with rfl | hbr
        · exact absurd hb2 hv
        · exact ⟨b, hbr, hb2⟩

theorem firstAnswer_valid {input : List String} {a : String}
    (h : firstAnswer input = some a) : a = "y" ∨ a = "n" := by
  induction input with
  | nil => simp [firstAnswer] at h
  | cons b rest ih =>
    by_cases hv : b = "y" ∨ b = "n"
    · rw [firstAnswer, if_pos hv] at h
      cases h
      exact hv
    · rw [firstAnswer, if_neg hv] at h
      exact ih h

theorem setGivenEnv_environments (envName : String) (s : Settings) :
    (setGivenEnv envName s).Environments = s.Environments := by
  unfold setGivenEnv
  cases lookupEnv envName s.Environments <;> rfl

theorem lookupEnv_mem {envName : String} {l : List (String × AssociatedEnv)}
    {e : AssociatedEnv} (h : lookupEnv envName l = some e) : (envName, e) ∈ l := by
  induction l with
  | nil => simp [lookupEnv] at h
  | cons p rest ih =>
    obtain ⟨eName, ev⟩ := p
    rw [lookupEnv] at h
    by_cases hk : eName = envName
    · rw [if_pos hk] at h
      injection h with h
      subst hk h
      exact List.mem_cons_self _ _
    · rw [if_neg hk] at h
      exact List.mem_cons_of_mem _ (ih h)

theorem check_of_complete (required prompt : Bool) (s : Settings) (input : List String)
    (h : ¬(s.EnvironmentID = "" ∨ s.ServiceID = "")) :
    CheckRequiredAssociation required prompt s input = some ⟨Except.ok (), s, false⟩ := by
  unfold CheckRequiredAssociation
  rw [if_neg (fun hcond => h hcond.2)]

theorem check_not_required (prompt : Bool) (s : Settings) (input : List String) :
    CheckRequiredAssociation false prompt s input = some ⟨Except.ok (), s, false⟩ := by
  unfold CheckRequiredAssociation
  rw [if_neg (fun hcond => Bool.false_ne_true hcond.1)]

theorem check_incomplete_noprompt (s : Settings) (input : List String)
    (h : s.EnvironmentID = "" ∨ s.ServiceID = "") :
    CheckRequiredAssociation true false s input
      = some ⟨Except.error ErrEnvRequired, s, false⟩ := by
  unfold CheckRequiredAssociation
  rw [if_pos ⟨rfl, h⟩]
  rfl

theorem check_incomplete_prompt_nil (s : Settings) (input : List String)
    (h : s.EnvironmentID = "" ∨ s.ServiceID = "") (henv : s.Environments = []) :
    CheckRequiredAssociation true true s input
      = some ⟨Except.error ErrEnvRequired, s, false⟩ := by
  unfold CheckRequiredAssociation
  rw [if_pos ⟨rfl, h⟩, henv]
  rfl

theorem check_incomplete_prompt_cons (s : Settings) (input : List String)
    (k : String) (e : AssociatedEnv) (rest : List (String × AssociatedEnv))
    (h : s.EnvironmentID = "" ∨ s.ServiceID = "") (henv : s.Environments = (k, e) :: rest) :
    CheckRequiredAssociation true true s input =
      match defaultEnvPrompt e.Name input with
      | none => none
      | some (Except.ok ()) => some ⟨Except.ok (), setGivenEnv e.Name s, true⟩
      | some (Except.error msg) => some ⟨Except.error msg, s, true⟩ := by
  unfold CheckRequiredAssociation
  rw [if_pos ⟨rfl, h⟩, henv]
  rfl

theorem resolveGivenEnv_environments {envName : String} {s0 s1 : Settings}
    (h : resolveGivenEnv envName s0 = Except.ok s1) :
    s1.Environments = s0.Environments := by
  unfold resolveGivenEnv at h
  by_cases hn : envName ≠ ""
  · rw [if_pos hn] at h
    by_cases hc : (setGivenEnv envName s0).EnvironmentID = "" ∨ (setGivenEnv envName s0).ServiceID = ""
    · rw [if_pos hc] at h
      cases h
    · rw [if_neg hc] at h
      injection h with h
      subst h
      exact setGivenEnv_environments envName s0
  · rw [if_neg hn] at h
    injection h with h
    subst h
    rfl

theorem resolveSettings_environments {envName : String} {s0 s2 : Settings}
    (h : resolveSettings envName s0 = Except.ok s2) :
    s2.Environments = s0.Environments := by
  unfold resolveSettings at h
  cases hres : resolveGivenEnv envName s0 with
  | error msg => rw [hres] at h; cases h
  | ok s1 =>
    rw [hres] at h
    injection h with h
    subst h
    have h1 := resolveGivenEnv_environments hres
    by_cases hc : s1.EnvironmentID = "" ∨ s1.ServiceID = ""
    · rw [if_pos hc, setGivenEnv_environments]
      exact h1
    · rw [if_neg hc]
      exact h1

theorem finishSettings_environments (aH auH pH u pw av pv : String) (s2 : Settings) :
    (finishSettings aH auH pH u pw av pv s2).Environments = s2.Environments := rfl

theorem getSettings_eq_store (p : PersistedSettings)
    (envName svc aH auH iav pH ipv u pw av pv : String) :
    GetSettings envName svc aH auH iav pH ipv u pw av pv ⟨none, some p⟩ =
      match resolveSettings envName (decodeStore p) with
      | Except.error msg => Except.error msg
      | Except.ok s2 =>
        Except.ok (finishSettings aH auH pH u pw av pv s2, ⟨none, some p⟩) := rfl

theorem getSettings_eq_legacy (c : PersistedSettings) (cu : Option PersistedSettings)
    (envName svc aH auH iav pH ipv u pw av pv : String) :
    GetSettings envName svc aH auH iav pH ipv u pw av pv ⟨some c, cu⟩ =
      match resolveSettings envName (decodeStore c) with
      | Except.error msg => Except.error msg
      | Except.ok s2 =>
        Except.ok (finishSettings aH auH pH u pw av pv s2, ⟨none, some c⟩) := rfl

theorem getSettings_eq_fresh (envName svc aH auH iav pH ipv u pw av pv : String) :
    GetSettings envName svc aH auH iav pH ipv u pw av pv ⟨none, none⟩ =
      match resolveSettings envName (decodeStore emptyStore) with
      | Except.error msg => Except.error msg
      | Except.ok s2 =>
        Except.ok (finishSettings aH auH pH u pw av pv s2, ⟨none, some emptyStore⟩) := rfl

theorem setGivenEnv_inv {envName : String} {s : Settings}
    (henvs : envsInv s.Environments) (hs : settingsInv s) :
    settingsInv (setGivenEnv envName s) := by
  cases hl : lookupEnv envName s.Environments with
  | none => rw [setGivenEnv_of_lookup_none hl]; exact hs
  | some e =>
    rw [setGivenEnv_of_lookup_some hl]
    exact henvs _ (lookupEnv_mem hl)

theorem resolveGivenEnv_inv {envName : String} {s0 s1 : Settings}
    (hs : settingsInv s0) (h : resolveGivenEnv envName s0 = Except.ok s1) :
    settingsInv s1 := by
  unfold resolveGivenEnv at h
  by_cases hn : envName ≠ ""
  · rw [if_pos hn] at h
    by_cases hc : (setGivenEnv envName s0).EnvironmentID = ""
        ∨ (setGivenEnv envName s0).ServiceID = ""
    · rw [if_pos hc] at h
      cases h
    · rw [if_neg hc] at h
      injection h with h
      subst h
      push_neg at hc
      exact Or.inr hc
  · rw [if_neg hn] at h
    injection h with h
    subst h
    exact hs

theorem resolveSettings_inv {envName : String} {s0 s2 : Settings}
    (henvs : envsInv s0.Environments) (hs : settingsInv s0)
    (h : resolveSettings envName s0 = Except.ok s2) : settingsInv s2 := by
  unfold resolveSettings at h
  cases hres : resolveGivenEnv envName s0 with
  | error msg => rw [hres] at h; cases h
  | ok s1 =>
    rw [hres] at h
    injection h with h
    subst h
    have hs1 : settingsInv s1 := resolveGivenEnv_inv hs hres
    have henvs1 : envsInv s1.Environments := by
      rw [resolveGivenEnv_environments hres]
      exact henvs
    by_cases hc : s1.EnvironmentID = "" ∨ s1.ServiceID = ""
    · rw [if_pos hc]
      exact setGivenEnv_inv henvs1 hs1
    · rw [if_neg hc]
      exact hs1

theorem finishSettings_inv (aH auH pH u pw av pv : String) {s2 : Settings}
    (h : settingsInv s2) : settingsInv (finishSettings aH auH pH u pw av pv s2) := h

theorem getSettingsOut_inv {p : PersistedSettings}
    {envName aH auH pH u pw av pv : String} {s2 : Settings}
    (hpair : pairInv p.EnvironmentID p.ServiceID)
    (henvs : envsInv (p.Environments.getD []))
    (hres : resolveSettings envName (decodeStore p) = Except.ok s2) :
    settingsInv (finishSettings aH auH pH u pw av pv s2) := by
  apply finishSettings_inv
  have hs : settingsInv (decodeStore p) := hpair
  have he : envsInv (decodeStore p).Environments := henvs
  exact resolveSettings_inv he hs hres

/-! ## Claims -/

/-- C1: non-interactive gate decision.  `CheckRequiredAssociation(false, p, s)`
never errs for any prompt flag and any settings; `CheckRequiredAssociation(true,
false, s)` returns the AssociationRequired error iff `EnvironmentID` or
`ServiceID` is empty; and `CheckRequiredAssociation(true, true, s)` on an
incomplete association with an empty `Environments` mapping returns the same
error without prompting. -/
theorem checkRequiredAssociation_gate (p : Bool) (s : Settings) (input : List String) :
    CheckRequiredAssociation false p s input = some ⟨Except.ok (), s, false⟩
    ∧ (∃ r, CheckRequiredAssociation true false s input = some r
        ∧ (r.result = Except.error ErrEnvRequired ↔ (s.EnvironmentID = "" ∨ s.ServiceID = "")))
    ∧ ((s.EnvironmentID = "" ∨ s.ServiceID = "") → s.Environments = [] →
        CheckRequiredAssociation true true s input
          = some ⟨Except.error ErrEnvRequired, s, false⟩) := by
  refine ⟨by simp [CheckRequiredAssociation], ?_, ?_⟩
  · by_cases h : s.EnvironmentID = "" ∨ s.ServiceID = ""
    · exact ⟨⟨Except.error ErrEnvRequired, s, false⟩,
        by simp [CheckRequiredAssociation, h], by simp [h]⟩
    · exact ⟨⟨Except.ok (), s, false⟩,
        by simp [CheckRequiredAssociation, h], by simp [h]⟩
  · intro h hempty
    simp [CheckRequiredAssociation, h, hempty]

/-- Witness for C1 at a concrete settings state. -/
theorem checkRequiredAssociation_gate_witness :
    CheckRequiredAssociation false true settingsEmptyFx ["x"]
      = some ⟨Except.ok (), settingsEmptyFx, false⟩
    ∧ CheckRequiredAssociation true true settingsEmptyFx ["x"]
      = some ⟨Except.error ErrEnvRequired, settingsEmptyFx, false⟩ :=
  ⟨(checkRequiredAssociation_gate true settingsEmptyFx ["x"]).1,
   (checkRequiredAssociation_gate true settingsEmptyFx ["x"]).2.2 (Or.inl rfl) rfl⟩

/-- C9: the interactive fallback prompt terminates iff the input stream
eventually contains a line that is exactly `y` or exactly `n`; it returns no
error when the first such line is `y` and returns the cancellation error
(distinct from the AssociationRequired error) when it is `n`. -/
theorem defaultEnvPrompt_termination (envName : String) (input : List String) :
    ((defaultEnvPrompt envName input).isSome ↔ ∃ a, a ∈ input ∧ (a = "y" ∨ a = "n"))
    ∧ (firstAnswer input = some "y" →
        defaultEnvPrompt envName input = some (Except.ok ()))
    ∧ (firstAnswer input = some "n" →
        defaultEnvPrompt envName input = some (Except.error "Exiting"))
    ∧ (defaultEnvPrompt envName input = some (Except.ok ()) →
        firstAnswer input = some "y")
    ∧ (defaultEnvPrompt envName input = some (Except.error "Exiting") →
        firstAnswer input = some "n")
    ∧ "Exiting" ≠ ErrEnvRequired := by
  refine ⟨?_, ?_, ?_, ?_, ?_, by decide⟩
  · rw [defaultEnvPrompt_eq_firstAnswer, Option.isSome_map']
    exact firstAnswer_isSome_iff input
  · intro h
    rw [defaultEnvPrompt_eq_firstAnswer, h]
    simp
  · intro h
    rw [defaultEnvPrompt_eq_firstAnswer, h]
    simp
  · intro h
    rw [defaultEnvPrompt_eq_firstAnswer] at h
    cases ha : firstAnswer input with
    | none => rw [ha] at h; simp at h
    | some a =>
      rw [ha] at h
      rcases firstAnswer_valid ha with hy | hn
      · rw [hy]
      · rw [hn] at h
        simp at h
  · intro h
    rw [defaultEnvPrompt_eq_firstAnswer] at h
    cases ha : firstAnswer input with
    | none => rw [ha] at h; simp at h
    | some a =>
      rw [ha] at h
      by_cases hn : a = "n"
      · rw [hn]
      · simp [hn] at h

/-- Witness for C9 at a concrete stream: two invalid answers, then `y`. -/
theorem defaultEnvPrompt_termination_witness :
    defaultEnvPrompt "prod" ["", "maybe", "y"] = some (Except.ok ())
    ∧ defaultEnvPrompt "prod" ["Y", "N"] = none :=
  ⟨(defaultEnvPrompt_termination "prod" ["", "maybe", "y"]).2.1 rfl, by decide⟩

/-- C10: alias resolution is a frame-preserving lookup: a miss leaves the
settings unchanged; a hit overwrites exactly `EnvironmentID`, `ServiceID`,
`Pod`, `EnvironmentName` (set to the looked-up name itself) and `OrgID` from
the entry, leaving every other field, including `Environments` and `Default`,
unchanged. -/
theorem setGivenEnv_frame (envName : String) (s : Settings) :
    (lookupEnv envName s.Environments = none → setGivenEnv envName s = s)
    ∧ (∀ e, lookupEnv envName s.Environments = some e →
        setGivenEnv envName s =
          { s with
            EnvironmentID := e.EnvironmentID
            ServiceID := e.ServiceID
            Pod := e.Pod
            EnvironmentName := envName
            OrgID := e.OrgID }) :=
  ⟨fun h => setGivenEnv_of_lookup_none h, fun _ h => setGivenEnv_of_lookup_some h⟩

/-- Witness for C10 at a concrete settings state: a miss and a hit. -/
theorem setGivenEnv_frame_witness :
    setGivenEnv "ghost" settingsProdFx = settingsProdFx
    ∧ setGivenEnv "prod" settingsProdFx =
        { settingsProdFx with
          EnvironmentID := envProdFx.EnvironmentID
          ServiceID := envProdFx.ServiceID
          Pod := envProdFx.Pod
          EnvironmentName := "prod"
          OrgID := envProdFx.OrgID } :=
  ⟨(setGivenEnv_frame "ghost" settingsProdFx).1 rfl,
   (setGivenEnv_frame "prod" settingsProdFx).2 envProdFx rfl⟩

/-- C2 (counterexample): `CheckRequiredAssociation(true, true, s)` can return
no error and still leave the association incomplete.  With one saved
environment whose entry has empty `EnvironmentID`/`ServiceID`, answering `y`
re-runs alias resolution, copies the empty fields, and the gate returns nil
with `EnvironmentID` still empty. -/
theorem checkRequiredAssociation_yes_partial_counterexample :
    (CheckRequiredAssociation true true settingsBlankEnvFx ["y"]).map
        (fun r => (r.result, r.settings.EnvironmentID, r.settings.ServiceID))
      = some (Except.ok (), "", "") := by
  decide

/-- C2 (amended): whenever `CheckRequiredAssociation(true, true, s)` returns
no error, the settings afterwards carry a complete association provided every
saved entry's display name is a key of the `Environments` mapping whose entry
has non-empty `EnvironmentID` and `ServiceID`; without that proviso the
interactive "yes" path may return nil with a partial association. -/
theorem checkRequiredAssociation_ok_resolved (s : Settings) (input : List String)
    (r : CheckResult)
    (hgood : ∀ k e, (k, e) ∈ s.Environments →
      ∃ e2, lookupEnv e.Name s.Environments = some e2
        ∧ e2.EnvironmentID ≠ "" ∧ e2.ServiceID ≠ "")
    (hrun : CheckRequiredAssociation true true s input = some r)
    (hok : r.result = Except.ok ()) :
    r.settings.EnvironmentID ≠ "" ∧ r.settings.ServiceID ≠ "" := by
  by_cases hc : s.EnvironmentID = "" ∨ s.ServiceID = ""
  · rcases henv : s.Environments with _ | ⟨⟨k, e⟩, rest⟩
    · rw [check_incomplete_prompt_nil s input hc henv] at hrun
      injection hrun with hrun
      subst hrun
      simp at hok
    · rw [check_incomplete_prompt_cons s input k e rest hc henv] at hrun
      cases hp : defaultEnvPrompt e.Name input with
      | none =>
        rw [hp] at hrun
        cases hrun
      | some res =>
        rw [hp] at hrun
        cases res with
        | ok u =>
          cases u
          injection hrun with hrun
          subst hrun
          obtain ⟨e2, hlook, h1, h2⟩ :=
            hgood k e (by rw [henv]; exact List.mem_cons_self _ _)
          show (setGivenEnv e.Name s).EnvironmentID ≠ ""
            ∧ (setGivenEnv e.Name s).ServiceID ≠ ""
          rw [setGivenEnv_of_lookup_some hlook]
          exact ⟨h1, h2⟩
        | error msg =>
          injection hrun with hrun
          subst hrun
          simp at hok
  · rw [check_of_complete true true s input hc] at hrun
    injection hrun with hrun
    subst hrun
    push_neg at hc
    exact hc

/-- Witness for the amended C2 at a concrete settings state with a
well-formed saved environment and a `y` answer. -/
theorem checkRequiredAssociation_ok_resolved_witness :
    (setGivenEnv "prod" settingsProdFx).EnvironmentID ≠ ""
    ∧ (setGivenEnv "prod" settingsProdFx).ServiceID ≠ "" := by
  refine checkRequiredAssociation_ok_resolved settingsProdFx ["y"]
    ⟨Except.ok (), setGivenEnv "prod" settingsProdFx, true⟩ ?_ (by decide) rfl
  intro k e hmem
  have hm : (k, e) = ("prod", envProdFx) := by
    simpa [settingsProdFx, settingsEmptyFx] using hmem
  injection hm with hk he
  subst hk he
  exact ⟨envProdFx, by decide, by decide, by decide⟩

/-- C3 (counterexample): the both-empty-or-both-non-empty invariant is not
guaranteed for every store file: a store whose `Default` alias maps to an
entry with non-empty `EnvironmentID` but empty `ServiceID` makes `GetSettings`
return a mixed Settings object. -/
theorem settings_association_invariant_counterexample :
    (GetSettings "" "" "" "" "" "" "" "" "" "" "" ⟨none, some storeMixedDefaultFx⟩).map
        (fun r => (r.1.EnvironmentID, r.1.ServiceID)) = Except.ok ("e1", "")
    ∧ ¬ pairInv "e1" "" :=
  ⟨by decide, by decide⟩

/-- C3 (amended): the association invariant holds for the Settings object
returned by `GetSettings` and is preserved by alias resolution,
`CheckRequiredAssociation` and `DeleteBreadcrumb`, provided the store file's
top-level pair and every saved entry themselves satisfy the invariant (the
operations copy entry fields verbatim, so a mixed entry defeats it). -/
theorem settings_association_invariant :
    (∀ (envName : String) (s : Settings), envsInv s.Environments → settingsInv s →
        settingsInv (setGivenEnv envName s))
    ∧ (∀ (cur : Option PersistedSettings)
        (envName svc aH auH iav pH ipv u pw av pv : String)
        (out : Settings) (fs2 : FS PersistedSettings),
        (∀ p, cur = some p →
          pairInv p.EnvironmentID p.ServiceID ∧ envsInv (p.Environments.getD [])) →
        GetSettings envName svc aH auH iav pH ipv u pw av pv ⟨none, cur⟩
          = Except.ok (out, fs2) →
        settingsInv out)
    ∧ (∀ (required prompt : Bool) (s : Settings) (input : List String) (r : CheckResult),
        envsInv s.Environments → settingsInv s →
        CheckRequiredAssociation required prompt s input = some r →
        settingsInv r.settings)
    ∧ (∀ (aliasName : String) (s : Settings) (fs : FS PersistedSettings),
        settingsInv s → settingsInv (DeleteBreadcrumb aliasName s fs).2.1) := by
  refine ⟨fun envName s henvs hs => setGivenEnv_inv henvs hs, ?_, ?_, ?_⟩
  · intro cur envName svc aH auH iav pH ipv u pw av pv out fs2 hstore hrun
    cases cur with
    | none =>
      rw [getSettings_eq_fresh] at hrun
      cases hres : resolveSettings envName (decodeStore emptyStore) with
      | error msg => rw [hres] at hrun; cases hrun
      | ok s2 =>
        rw [hres] at hrun
        injection hrun with hrun
        injection hrun with h1 h2
        subst h1
        exact getSettingsOut_inv (Or.inl ⟨rfl, rfl⟩)
          (fun q hq => by simp [emptyStore] at hq) hres
    | some p =>
      obtain ⟨hpair, henvs⟩ := hstore p rfl
      rw [getSettings_eq_store] at hrun
      cases hres : resolveSettings envName (decodeStore p) with
      | error msg => rw [hres] at hrun; cases hrun
      | ok s2 =>
        rw [hres] at hrun
        injection hrun with hrun
        injection hrun with h1 h2
        subst h1
        exact getSettingsOut_inv hpair henvs hres
  · intro required prompt s input r henvs hs hrun
    by_cases hc : s.EnvironmentID = "" ∨ s.ServiceID = ""
    · cases required with
      | false =>
        rw [check_not_required prompt s input] at hrun
        injection hrun with hrun
        subst hrun
        exact hs
      | true =>
        cases prompt with
        | false =>
          rw [check_incomplete_noprompt s input hc] at hrun
          injection hrun with hrun
          subst hrun
          exact hs
        | true =>
          rcases henv : s.Environments with _ | ⟨⟨k, e⟩, rest⟩
          · rw [check_incomplete_prompt_nil s input hc henv] at hrun
            injection hrun with hrun
            subst hrun
            exact hs
          · rw [check_incomplete_prompt_cons s input k e rest hc henv] at hrun
            cases hp : defaultEnvPrompt e.Name input with
            | none => rw [hp] at hrun; cases hrun
            | some res =>
              rw [hp] at hrun
              cases res with
              | ok u =>
                cases u
                injection hrun with hrun
                subst hrun
                exact setGivenEnv_inv henvs hs
              | error msg =>
                injection hrun with hrun
                subst hrun
                exact hs
    · rw [check_of_complete required prompt s input hc] at hrun
      injection hrun with hrun
      subst hrun
      exact hs
  · intro aliasName s fs hs
    unfold DeleteBreadcrumb
    cases hl : lookupEnv aliasName s.Environments <;> exact hs

/-- Witness for the amended C3 at concrete inputs. -/
theorem settings_association_invariant_witness :
    settingsInv (setGivenEnv "prod" settingsProdFx)
    ∧ settingsInv (DeleteBreadcrumb "prod" settingsProdFx ⟨none, none⟩).2.1 := by
  have henvs : envsInv settingsProdFx.Environments := by
    intro q hq
    have hq2 : q = ("prod", envProdFx) := by
      simpa [settingsProdFx, settingsEmptyFx] using hq
    subst hq2
    exact Or.inr ⟨by decide, by decide⟩
  exact ⟨settings_association_invariant.1 "prod" settingsProdFx henvs (Or.inl ⟨rfl, rfl⟩),
    settings_association_invariant.2.2.2 "prod" settingsProdFx ⟨none, none⟩
      (Or.inl ⟨rfl, rfl⟩)⟩

/-- C4 (counterexample): an absent CLI-supplied alias is not always fatal.
If the store file's top-level `EnvironmentID`/`ServiceID` are already
populated (as a previous `SaveSettings` writes them), the failed lookup
leaves them non-empty and `GetSettings` returns the stale Settings object
instead of terminating. -/
theorem getSettings_fatal_on_unresolved_alias_counterexample :
    (GetSettings "staging" "" "" "" "" "" "" "" "" "" "" ⟨none, some storeStaleTopFx⟩).map
        (fun r => (r.1.EnvironmentID, r.1.ServiceID)) = Except.ok ("e1", "s1") := by
  decide

/-- C4 (amended): for every store and non-empty CLI-supplied name,
`GetSettings` terminates fatally with the "no environment named" message when
the name is absent from the mapping and the decoded top-level association is
incomplete, or when the name is present but its entry has empty
`EnvironmentID` or `ServiceID`; an absent name with an already-complete
decoded top-level association slips through. -/
theorem getSettings_fatal_on_unresolved_alias (p : PersistedSettings)
    (envName svc aH auH iav pH ipv u pw av pv : String)
    (hne : envName ≠ "")
    (hcase : (lookupEnv envName (p.Environments.getD []) = none
        ∧ (p.EnvironmentID = "" ∨ p.ServiceID = ""))
      ∨ (∃ e, lookupEnv envName (p.Environments.getD []) = some e
        ∧ (e.EnvironmentID = "" ∨ e.ServiceID = ""))) :
    GetSettings envName svc aH auH iav pH ipv u pw av pv ⟨none, some p⟩
      = Except.error (noEnvNamedMsg envName) := by
  have hres : resolveGivenEnv envName (decodeStore p)
      = Except.error (noEnvNamedMsg envName) := by
    unfold resolveGivenEnv
    rw [if_pos hne]
    rcases hcase with ⟨hl, hp⟩ | ⟨e, hl, hp⟩
    · have hl2 : lookupEnv envName (decodeStore p).Environments = none := hl
      rw [setGivenEnv_of_lookup_none hl2]
      have hp2 : (decodeStore p).EnvironmentID = "" ∨ (decodeStore p).ServiceID = "" := hp
      rw [if_pos hp2]
    · have hl2 : lookupEnv envName (decodeStore p).Environments = some e := hl
      rw [setGivenEnv_of_lookup_some hl2]
      rw [if_pos hp]
  have hres2 : resolveSettings envName (decodeStore p)
      = Except.error (noEnvNamedMsg envName) := by
    unfold resolveSettings
    rw [hres]
  rw [getSettings_eq_store, hres2]

/-- Witness for the amended C4: alias `staging` absent from an empty store. -/
theorem getSettings_fatal_on_unresolved_alias_witness :
    GetSettings "staging" "" "" "" "" "" "" "" "" "" "" ⟨none, some storeEmptyFx⟩
      = Except.error (noEnvNamedMsg "staging") :=
  getSettings_fatal_on_unresolved_alias storeEmptyFx "staging" "" "" "" "" "" "" "" "" "" ""
    (by decide) (Or.inl ⟨by decide, Or.inl rfl⟩)

/-- C5: one-time legacy migration.  For every file-system state in which the
legacy-named file exists and the current-named file does not, after
`GetSettings` completes the legacy file no longer exists and the current file
contains exactly the prior legacy contents. -/
theorem legacy_migration (c : PersistedSettings)
    (envName svc aH auH iav pH ipv u pw av pv : String)
    (fs : FS PersistedSettings)
    (hold : fs.oldFile = some c) (hcur : fs.curFile = none) :
    ∀ out fs2,
      GetSettings envName svc aH auH iav pH ipv u pw av pv fs = Except.ok (out, fs2) →
      fs2.oldFile = none ∧ fs2.curFile = some c := by
  obtain ⟨o, cu⟩ := fs
  have ho : o = some c := hold
  have hc2 : cu = none := hcur
  subst ho hc2
  intro out fs2 hrun
  rw [getSettings_eq_legacy] at hrun
  cases hres : resolveSettings envName (decodeStore c) with
  | error msg => rw [hres] at hrun; cases hrun
  | ok s2 =>
    rw [hres] at hrun
    injection hrun with hrun
    injection hrun with h1 h2
    subst h2
    exact ⟨rfl, rfl⟩

/-- Witness for C5 at a concrete legacy file content. -/
theorem legacy_migration_witness :
    (FS.mk none (some storeStableFx) : FS PersistedSettings).oldFile = none
    ∧ (FS.mk none (some storeStableFx) : FS PersistedSettings).curFile
        = some storeStableFx :=
  legacy_migration storeStableFx "" "" "" "" "" "" "" "" "" "" ""
    ⟨some storeStableFx, none⟩ rfl rfl settingsStableOutFx ⟨none, some storeStableFx⟩
    (by decide)

/-- C6 (counterexample): `Load` followed by `Save` is not byte-for-byte
faithful for every well-formed store: when the top-level association is empty
and the `Default` alias resolves, resolution overwrites the persisted
top-level `EnvironmentID`, so the saved file differs from the original. -/
theorem load_save_roundtrip_counterexample :
    (GetSettings "" "" "" "" "" "" "" "" "" "" "" ⟨none, some storeDefaultProdFx⟩).map
        (fun r => (marshalStore r.1).EnvironmentID) = Except.ok "e1"
    ∧ storeDefaultProdFx.EnvironmentID = "" :=
  ⟨by decide, by decide⟩

/-- C6 (amended): `Load` followed immediately by `Save` reproduces the store
content exactly for every well-formed store whose fields resolution does not
overwrite: the `environments` field is present, the persisted version fields
already equal the values `Load` stamps, and either the top-level association
is complete or the `Default` alias does not resolve. -/
theorem load_save_roundtrip (p : PersistedSettings)
    (envs : List (String × AssociatedEnv)) (svc aH auH iav pH ipv u pw : String)
    (henv : p.Environments = some envs)
    (hver : p.Version = VERSION)
    (hav : p.AuthHostVersion = AuthHostVersion)
    (hpv : p.PaasHostVersion = PaasHostVersion)
    (hres : (p.EnvironmentID ≠ "" ∧ p.ServiceID ≠ "") ∨ lookupEnv p.Default envs = none) :
    (GetSettings "" svc aH auH iav pH ipv u pw "" "" ⟨none, some p⟩).map
        (fun r => marshalStore r.1) = Except.ok p := by
  have h1 : resolveGivenEnv "" (decodeStore p) = Except.ok (decodeStore p) := by
    unfold resolveGivenEnv
    rw [if_neg (by simp)]
  have h2 : resolveSettings "" (decodeStore p) = Except.ok (decodeStore p) := by
    unfold resolveSettings
    rw [h1]
    show Except.ok (if (decodeStore p).EnvironmentID = "" ∨ (decodeStore p).ServiceID = ""
        then setGivenEnv (decodeStore p).Default (decodeStore p) else decodeStore p)
      = Except.ok (decodeStore p)
    by_cases hc : (decodeStore p).EnvironmentID = "" ∨ (decodeStore p).ServiceID = ""
    · rw [if_pos hc]
      rcases hres with ⟨ha, hb⟩ | hnone
      · exact absurd hc (by push_neg; exact ⟨ha, hb⟩)
      · have hl : lookupEnv (decodeStore p).Default (decodeStore p).Environments = none := by
          show lookupEnv p.Default (p.Environments.getD []) = none
          rw [henv]
          exact hnone
        rw [setGivenEnv_of_lookup_none hl]
    · rw [if_neg hc]
  rw [getSettings_eq_store, h2]
  show Except.ok (marshalStore (finishSettings aH auH pH u pw "" "" (decodeStore p)))
    = Except.ok p
  obtain ⟨pav, ppv, pe, ps, ppod, pen, po, pt, pu2, penvs, pd, pver⟩ := p
  have e1 : penvs = some envs := henv
  have e2 : pver = VERSION := hver
  have e3 : pav = AuthHostVersion := hav
  have e4 : ppv = PaasHostVersion := hpv
  subst e1 e2 e3 e4
  rfl

/-- Witness for the amended C6 at a concrete stable store. -/
theorem load_save_roundtrip_witness :
    (GetSettings "" "" "" "" "" "" "" "" "" "" "" ⟨none, some storeStableFx⟩).map
        (fun r => marshalStore r.1) = Except.ok storeStableFx :=
  load_save_roundtrip storeStableFx [("prod", envProdFx)] "" "" "" "" "" "" "" ""
    rfl rfl rfl rfl (Or.inl ⟨by decide, by decide⟩)

/-- C7: `DeleteBreadcrumb` on an absent alias returns the NotFound-kind
error, leaves the `Environments` mapping (indeed the whole settings object)
unmodified, and persists nothing to disk. -/
theorem removeAssociation_absent (aliasName : String) (s : Settings)
    (fs : FS PersistedSettings)
    (h : lookupEnv aliasName s.Environments = none) :
    (DeleteBreadcrumb aliasName s fs).1 = Except.error (notAssociatedMsg aliasName)
    ∧ (DeleteBreadcrumb aliasName s fs).2.1 = s
    ∧ (DeleteBreadcrumb aliasName s fs).2.2 = fs := by
  unfold DeleteBreadcrumb
  rw [h]
  exact ⟨rfl, rfl, rfl⟩

/-- Witness for C7 at a concrete absent alias. -/
theorem removeAssociation_absent_witness :
    (DeleteBreadcrumb "ghost" settingsProdFx ⟨none, none⟩).1
        = Except.error (notAssociatedMsg "ghost")
    ∧ (DeleteBreadcrumb "ghost" settingsProdFx ⟨none, none⟩).2.1 = settingsProdFx
    ∧ (DeleteBreadcrumb "ghost" settingsProdFx ⟨none, none⟩).2.2
        = (⟨none, none⟩ : FS PersistedSettings) :=
  removeAssociation_absent "ghost" settingsProdFx ⟨none, none⟩ (by decide)

theorem lookupEnv_removeKey_self (aliasName : String)
    (l : List (String × AssociatedEnv)) :
    lookupEnv aliasName (removeKey aliasName l) = none := by
  induction l with
  | nil => rfl
  | cons q rest ih =>
    obtain ⟨k, e⟩ := q
    by_cases hk : k = aliasName
    · rw [removeKey, if_pos hk]
      exact ih
    · rw [removeKey, if_neg hk, lookupEnv, if_neg hk]
      exact ih

theorem lookupEnv_removeKey_other (aliasName b : String) (hb : b ≠ aliasName)
    (l : List (String × AssociatedEnv)) :
    lookupEnv b (removeKey aliasName l) = lookupEnv b l := by
  induction l with
  | nil => rfl
  | cons q rest ih =>
    obtain ⟨k, e⟩ := q
    by_cases hk : k = aliasName
    · have hkb2 : k ≠ b := fun hkb => hb (hkb ▸ hk)
      rw [removeKey, if_pos hk, lookupEnv, if_neg hkb2]
      exact ih
    · rw [removeKey, if_neg hk, lookupEnv, lookupEnv]
      by_cases hkb : k = b
      · rw [if_pos hkb, if_pos hkb]
      · rw [if_neg hkb, if_neg hkb]
        exact ih

theorem getSettings_out_environments {p : PersistedSettings}
    {envName svc aH auH iav pH ipv u pw av pv : String}
    {out : Settings} {fs2 : FS PersistedSettings}
    (hrun : GetSettings envName svc aH auH iav pH ipv u pw av pv ⟨none, some p⟩
      = Except.ok (out, fs2)) :
    out.Environments = p.Environments.getD [] := by
  rw [getSettings_eq_store] at hrun
  cases hres : resolveSettings envName (decodeStore p) with
  | error msg => rw [hres] at hrun; cases hrun
  | ok s2 =>
    rw [hres] at hrun
    injection hrun with hrun
    injection hrun with h1 h2
    subst h1
    rw [finishSettings_environments, resolveSettings_environments hres]
    rfl

/-- C8: `DeleteBreadcrumb` on a present alias returns no error, deletes
exactly that key (every other alias lookup and every other Settings field is
unchanged), immediately persists the result via `SaveSettings`, and a
subsequent `GetSettings` from the persisted file no longer contains the
removed alias. -/
theorem removeAssociation_present (aliasName : String) (s : Settings)
    (fs : FS PersistedSettings) (e : AssociatedEnv)
    (hfound : lookupEnv aliasName s.Environments = some e)
    (hold : fs.oldFile = none) :
    (DeleteBreadcrumb aliasName s fs).1 = Except.ok ()
    ∧ (DeleteBreadcrumb aliasName s fs).2.1
        = { s with Environments := removeKey aliasName s.Environments }
    ∧ lookupEnv aliasName (DeleteBreadcrumb aliasName s fs).2.1.Environments = none
    ∧ (∀ b, b ≠ aliasName →
        lookupEnv b (DeleteBreadcrumb aliasName s fs).2.1.Environments
          = lookupEnv b s.Environments)
    ∧ (DeleteBreadcrumb aliasName s fs).2.2
        = SaveSettings { s with Environments := removeKey aliasName s.Environments } fs
    ∧ (∀ (envName svc aH auH iav pH ipv u pw av pv : String)
        (out : Settings) (fs2 : FS PersistedSettings),
        GetSettings envName svc aH auH iav pH ipv u pw av pv
            (DeleteBreadcrumb aliasName s fs).2.2 = Except.ok (out, fs2) →
        lookupEnv aliasName out.Environments = none) := by
  have hdel : DeleteBreadcrumb aliasName s fs =
      (Except.ok (), { s with Environments := removeKey aliasName s.Environments },
        SaveSettings { s with Environments := removeKey aliasName s.Environments } fs) := by
    unfold DeleteBreadcrumb
    rw [hfound]
  rw [hdel]
  refine ⟨rfl, rfl, lookupEnv_removeKey_self aliasName s.Environments,
    fun b hb => lookupEnv_removeKey_other aliasName b hb s.Environments, rfl, ?_⟩
  intro envName svc aH auH iav pH ipv u pw av pv out fs2 hrun
  obtain ⟨o, cu⟩ := fs
  have ho : o = none := hold
  subst ho
  have henvs := getSettings_out_environments hrun
  rw [henvs]
  exact lookupEnv_removeKey_self aliasName s.Environments

/-- Witness for C8 at a concrete present alias. -/
theorem removeAssociation_present_witness :
    (DeleteBreadcrumb "prod" settingsProdFx ⟨none, none⟩).1 = Except.ok ()
    ∧ lookupEnv "prod"
        (DeleteBreadcrumb "prod" settingsProdFx ⟨none, none⟩).2.1.Environments
      = none := by
  have h := removeAssociation_present "prod" settingsProdFx ⟨none, none⟩ envProdFx
    (by decide) rfl
  exact ⟨h.1, h.2.2.1⟩

end Datica
